import Mathlib

/-!
Verification development for the BitFun PDF form-handling utilities.

The Python sources under `src/crates/core/builtin_skills/pdf/utils/` are
shallowly embedded below: numbers that Python stores as floats are modelled
as rationals (`ℚ`), Python dicts with optional keys are modelled as
structures with `Option` fields, dict/set iteration-order semantics are
modelled with association lists, and code paths that can raise (KeyError,
StopIteration, ZeroDivisionError, `sys.exit`) are modelled with `Except` or
dedicated outcome constructors.  The human-readable diagnostic strings the
scripts print are modelled as an inductive message type carrying exactly the
data interpolated into each message.
-/

namespace BitFun

/-! ## Geometry: 4-element bounds lists

Python passes bounding boxes around as 4-element lists of floats
`[b0, b1, b2, b3]` (indices 0..3).  `x0, y0, x1, y1` name those four
positions. -/

structure Bounds where
  x0 : ℚ
  y0 : ℚ
  x1 : ℚ
  y1 : ℚ
deriving DecidableEq, Repr

/-! ## verify_form_layout.py -/

/-- Optional `text_content` object of a field entry
(`{content, font, text_size, text_color}`, every key optional). -/
structure TextContent where
  content : Option String := none
  font : Option String := none
  text_size : Option ℚ := none
  text_color : Option String := none
deriving DecidableEq, Repr

/-- One element of `config["field_entries"]` in `form_config.json`. -/
structure FieldEntry where
  description : String
  page_num : Int
  label_bounds : Bounds
  entry_bounds : Bounds
  text_content : Option TextContent := none
deriving DecidableEq, Repr

/-- The `BoundsAndEntry` dataclass.  `entryIdx` records which element of
`field_entries` the record came from; Python's `bi.entry is bj.entry`
identity test is `entryIdx` equality, since each config entry object is
pushed twice (once per box) into `bounds_list`. -/
structure BoundsAndEntry where
  bounds : Bounds
  bounds_type : String
  entryIdx : Nat
  entry : FieldEntry
deriving DecidableEq, Repr

/-- `bounds_overlap(b1, b2)` from `verify_form_layout.py`:
`no_horizontal_overlap = b1[0] >= b2[2] or b1[2] <= b2[0]`,
`no_vertical_overlap = b1[1] >= b2[3] or b1[3] <= b2[1]`,
overlap iff neither holds. -/
def bounds_overlap (b1 b2 : Bounds) : Bool :=
  let no_horizontal_overlap := decide (b1.x0 ≥ b2.x1) || decide (b1.x1 ≤ b2.x0)
  let no_vertical_overlap := decide (b1.y0 ≥ b2.y1) || decide (b1.y1 ≤ b2.y0)
  !(no_horizontal_overlap || no_vertical_overlap)

/-- The diagnostic messages `validate_form_layout` appends, one constructor
per `messages.append(...)` site, carrying the data interpolated into the
printed string. -/
inductive Msg where
  /-- "已读取 N 个字段条目" -/
  | summary (n : Nat)
  /-- label/entry boxes of one entry overlap -/
  | overlapSame (e : FieldEntry) (b1 b2 : Bounds)
  /-- boxes of two distinct entries overlap -/
  | overlapDiff (e1 : FieldEntry) (t1 : String) (b1 : Bounds)
      (e2 : FieldEntry) (t2 : String) (b2 : Bounds)
  /-- entry box too small for its text size -/
  | heightFail (e : FieldEntry) (entry_height text_size : ℚ)
  /-- "中止后续检查；请修正边界框后重试" -/
  | truncated
  /-- "成功: 所有边界框均有效" -/
  | success
deriving DecidableEq, Repr

/-- The `bounds_list` built at the top of `validate_form_layout`:
per entry a label record then an entry record. -/
def bounds_list (entries : List FieldEntry) : List BoundsAndEntry :=
  entries.enum.flatMap fun p =>
    [⟨p.2.label_bounds, "标签", p.1, p.2⟩, ⟨p.2.entry_bounds, "输入", p.1, p.2⟩]

/-- The overlap failure message appended for a colliding pair, choosing the
same-entry wording when `bi.entry is bj.entry`. -/
def overlap_msg (bi bj : BoundsAndEntry) : Msg :=
  if bi.entryIdx = bj.entryIdx then .overlapSame bi.entry bi.bounds bj.bounds
  else .overlapDiff bi.entry bi.bounds_type bi.bounds bj.entry bj.bounds_type bj.bounds

/-- The inner `for j in range(i + 1, len(bounds_list))` loop.
`Except.error` models the early `return messages` after the truncation
notice; `Except.ok` carries `(messages, found_error)` onward. -/
def pair_loop (bi : BoundsAndEntry) :
    List BoundsAndEntry → List Msg → Bool → Except (List Msg) (List Msg × Bool)
  | [], msgs, found => .ok (msgs, found)
  | bj :: rest, msgs, found =>
    if bi.entry.page_num = bj.entry.page_num ∧ bounds_overlap bi.bounds bj.bounds then
      if (msgs ++ [overlap_msg bi bj]).length ≥ 20 then
        .error (msgs ++ [overlap_msg bi bj] ++ [.truncated])
      else pair_loop bi rest (msgs ++ [overlap_msg bi bj]) true
    else pair_loop bi rest msgs found

/-- The `if bi.bounds_type == "输入"` height check after the inner loop:
`text_size = text_content.get("text_size", 14)`,
`entry_height = bi.bounds[3] - bi.bounds[1]`. -/
def height_check (bi : BoundsAndEntry) (msgs : List Msg) (found : Bool) :
    Except (List Msg) (List Msg × Bool) :=
  if bi.bounds_type = "输入" then
    match bi.entry.text_content with
    | some tc =>
      if bi.bounds.y1 - bi.bounds.y0 < tc.text_size.getD 14 then
        if (msgs ++ [Msg.heightFail bi.entry (bi.bounds.y1 - bi.bounds.y0) (tc.text_size.getD 14)]).length ≥ 20 then
          .error (msgs ++ [.heightFail bi.entry (bi.bounds.y1 - bi.bounds.y0) (tc.text_size.getD 14)] ++ [.truncated])
        else .ok (msgs ++ [.heightFail bi.entry (bi.bounds.y1 - bi.bounds.y0) (tc.text_size.getD 14)], true)
      else .ok (msgs, found)
    | none => .ok (msgs, found)
  else .ok (msgs, found)

/-- The outer `for i, bi in enumerate(bounds_list)` loop. -/
def outer_loop :
    List BoundsAndEntry → List Msg → Bool → Except (List Msg) (List Msg × Bool)
  | [], msgs, found => .ok (msgs, found)
  | bi :: rest, msgs, found =>
    match pair_loop bi rest msgs found with
    | .error m => .error m
    | .ok (msgs', found') =>
      match height_check bi msgs' found' with
      | .error m => .error m
      | .ok (msgs'', found'') => outer_loop rest msgs'' found''

/-- `validate_form_layout` (on an already-decoded config): initial summary
line, the double loop with its cap-and-truncate early return, and the final
success line when no failure was found. -/
def validate_form_layout (entries : List FieldEntry) : List Msg :=
  let msgs := [Msg.summary entries.length]
  match outer_loop (bounds_list entries) msgs false with
  | .error m => m
  | .ok (msgs', found) => if found then msgs' else msgs' ++ [.success]

/-! ### Invariants of the diagnostic loop -/

/-- Messages produced by the two failure sites inside the loop: an
`overlapDiff` message always names two entries on the same page, and the
loop body itself never appends the truncation/summary/success messages. -/
def loop_msg_ok (m : Msg) : Prop :=
  (∀ e1 t1 b1 e2 t2 b2, m = Msg.overlapDiff e1 t1 b1 e2 t2 b2 → e1.page_num = e2.page_num)
  ∧ m ≠ .truncated ∧ m ≠ .success ∧ ∀ n, m ≠ .summary n

lemma overlap_msg_ok (bi bj : BoundsAndEntry)
    (h : bi.entry.page_num = bj.entry.page_num) : loop_msg_ok (overlap_msg bi bj) := by
  unfold overlap_msg loop_msg_ok
  split <;> refine ⟨?_, by simp, by simp, by simp⟩
  · intro e1 t1 b1 e2 t2 b2 hm; cases hm
  · intro e1 t1 b1 e2 t2 b2 hm
    cases hm
    exact h

lemma heightFail_msg_ok (e : FieldEntry) (h ts : ℚ) :
    loop_msg_ok (Msg.heightFail e h ts) := by
  refine ⟨?_, by simp, by simp, by simp⟩
  intro e1 t1 b1 e2 t2 b2 hm; cases hm

/-- Combined invariant for `pair_loop`: starting from at most 19 accumulated
messages, a normal exit still has at most 19 and only appended loop
messages; the truncating exit appends loop messages up to exactly 20 and
then one truncation notice. -/
lemma pair_loop_inv (bi : BoundsAndEntry) (l : List BoundsAndEntry) :
    ∀ (msgs : List Msg) (found : Bool), msgs.length ≤ 19 →
      (∀ ms f, pair_loop bi l msgs found = .ok (ms, f) →
        ∃ d, ms = msgs ++ d ∧ ms.length ≤ 19 ∧ ∀ m ∈ d, loop_msg_ok m) ∧
      (∀ ms, pair_loop bi l msgs found = .error ms →
        ∃ d, ms = msgs ++ d ++ [.truncated] ∧ (msgs ++ d).length = 20 ∧
          ∀ m ∈ d, loop_msg_ok m) := by
  induction l with
  | nil =>
    intro msgs found h19
    constructor
    · intro ms f hok
      simp only [pair_loop, Except.ok.injEq, Prod.mk.injEq] at hok
      obtain ⟨rfl, rfl⟩ := hok
      exact ⟨[], by simp, h19, by simp⟩
    · intro ms herr
      simp [pair_loop] at herr
  | cons bj rest ih =>
    intro msgs found h19
    by_cases hc : bi.entry.page_num = bj.entry.page_num ∧ bounds_overlap bi.bounds bj.bounds
    · by_cases hl : (msgs ++ [overlap_msg bi bj]).length ≥ 20
      · constructor
        · intro ms f hok
          simp only [pair_loop] at hok
          rw [if_pos hc, if_pos hl] at hok
          exact absurd hok (by simp)
        · intro ms herr
          simp only [pair_loop] at herr
          rw [if_pos hc, if_pos hl] at herr
          simp only [Except.error.injEq] at herr
          subst herr
          refine ⟨[overlap_msg bi bj], rfl, ?_, ?_⟩
          · have h1 : msgs.length + 1 ≥ 20 := by simpa using hl
            have h2 : msgs.length + 1 = 20 := le_antisymm (by omega) h1
            simpa using h2
          · intro m hm
            simp only [List.mem_singleton] at hm
            subst hm
            exact overlap_msg_ok bi bj hc.1
      · have h19' : (msgs ++ [overlap_msg bi bj]).length ≤ 19 := by
          simp only [List.length_append, List.length_singleton]
          simp only [List.length_append, List.length_singleton, ge_iff_le, not_le] at hl
          omega
        obtain ⟨ihok, iherr⟩ := ih (msgs ++ [overlap_msg bi bj]) true h19'
        constructor
        · intro ms f hok
          simp only [pair_loop] at hok
          rw [if_pos hc, if_neg hl] at hok
          obtain ⟨d, hd, hlen, hall⟩ := ihok ms f hok
          refine ⟨overlap_msg bi bj :: d, by simpa using hd, hlen, ?_⟩
          intro m hm
          rcases List.mem_cons.mp hm with rfl | hm
          · exact overlap_msg_ok bi bj hc.1
          · exact hall m hm
        · intro ms herr
          simp only [pair_loop] at herr
          rw [if_pos hc, if_neg hl] at herr
          obtain ⟨d, hd, hlen, hall⟩ := iherr ms herr
          refine ⟨overlap_msg bi bj :: d, by simpa using hd, by simpa using hlen, ?_⟩
          intro m hm
          rcases List.mem_cons.mp hm with rfl | hm
          · exact overlap_msg_ok bi bj hc.1
          · exact hall m hm
    · obtain ⟨ihok, iherr⟩ := ih msgs found h19
      constructor
      · intro ms f hok
        simp only [pair_loop] at hok
        rw [if_neg hc] at hok
        exact ihok ms f hok
      · intro ms herr
        simp only [pair_loop] at herr
        rw [if_neg hc] at herr
        exact iherr ms herr

/-- Same combined invariant for the height check. -/
lemma height_check_inv (bi : BoundsAndEntry) (msgs : List Msg) (found : Bool)
    (h19 : msgs.length ≤ 19) :
    (∀ ms f, height_check bi msgs found = .ok (ms, f) →
      ∃ d, ms = msgs ++ d ∧ ms.length ≤ 19 ∧ ∀ m ∈ d, loop_msg_ok m) ∧
    (∀ ms, height_check bi msgs found = .error ms →
      ∃ d, ms = msgs ++ d ++ [.truncated] ∧ (msgs ++ d).length = 20 ∧
        ∀ m ∈ d, loop_msg_ok m) := by
  constructor
  · intro ms f hok
    unfold height_check at hok
    by_cases ht : bi.bounds_type = "输入"
    · rw [if_pos ht] at hok
      cases htc : bi.entry.text_content with
      | none =>
        simp only [htc] at hok
        simp only [Except.ok.injEq, Prod.mk.injEq] at hok
        obtain ⟨rfl, rfl⟩ := hok
        exact ⟨[], by simp, h19, by simp⟩
      | some tc =>
        simp only [htc] at hok
        by_cases hlt : bi.bounds.y1 - bi.bounds.y0 < tc.text_size.getD 14
        · rw [if_pos hlt] at hok
          by_cases hl :
              (msgs ++ [Msg.heightFail bi.entry (bi.bounds.y1 - bi.bounds.y0) (tc.text_size.getD 14)]).length ≥ 20
          · rw [if_pos hl] at hok
            simp at hok
          · rw [if_neg hl] at hok
            simp only [Except.ok.injEq, Prod.mk.injEq] at hok
            obtain ⟨rfl, rfl⟩ := hok
            refine ⟨[Msg.heightFail bi.entry (bi.bounds.y1 - bi.bounds.y0) (tc.text_size.getD 14)],
              rfl, by simp at hl ⊢; omega, ?_⟩
            intro m hm
            simp only [List.mem_singleton] at hm
            subst hm
            exact heightFail_msg_ok _ _ _
        · rw [if_neg hlt] at hok
          simp only [Except.ok.injEq, Prod.mk.injEq] at hok
          obtain ⟨rfl, rfl⟩ := hok
          exact ⟨[], by simp, h19, by simp⟩
    · rw [if_neg ht] at hok
      simp only [Except.ok.injEq, Prod.mk.injEq] at hok
      obtain ⟨rfl, rfl⟩ := hok
      exact ⟨[], by simp, h19, by simp⟩
  · intro ms herr
    unfold height_check at herr
    by_cases ht : bi.bounds_type = "输入"
    · rw [if_pos ht] at herr
      cases htc : bi.entry.text_content with
      | none => simp [htc] at herr
      | some tc =>
        simp only [htc] at herr
        by_cases hlt : bi.bounds.y1 - bi.bounds.y0 < tc.text_size.getD 14
        · rw [if_pos hlt] at herr
          by_cases hl :
              (msgs ++ [Msg.heightFail bi.entry (bi.bounds.y1 - bi.bounds.y0) (tc.text_size.getD 14)]).length ≥ 20
          · rw [if_pos hl] at herr
            simp only [Except.error.injEq] at herr
            subst herr
            refine ⟨[Msg.heightFail bi.entry (bi.bounds.y1 - bi.bounds.y0) (tc.text_size.getD 14)],
              rfl, ?_, ?_⟩
            · have h1 : msgs.length + 1 ≥ 20 := by simpa using hl
              have h2 : msgs.length + 1 = 20 := le_antisymm (by omega) h1
              simpa using h2
            · intro m hm
              simp only [List.mem_singleton] at hm
              subst hm
              exact heightFail_msg_ok _ _ _
          · rw [if_neg hl] at herr
            simp at herr
        · rw [if_neg hlt] at herr
          simp at herr
    · rw [if_neg ht] at herr
      simp at herr

/-- Combined invariant for the outer loop. -/
lemma outer_loop_inv (l : List BoundsAndEntry) :
    ∀ (msgs : List Msg) (found : Bool), msgs.length ≤ 19 →
      (∀ ms f, outer_loop l msgs found = .ok (ms, f) →
        ∃ d, ms = msgs ++ d ∧ ms.length ≤ 19 ∧ ∀ m ∈ d, loop_msg_ok m) ∧
      (∀ ms, outer_loop l msgs found = .error ms →
        ∃ d, ms = msgs ++ d ++ [.truncated] ∧ (msgs ++ d).length = 20 ∧
          ∀ m ∈ d, loop_msg_ok m) := by
  induction l with
  | nil =>
    intro msgs found h19
    constructor
    · intro ms f hok
      simp only [outer_loop, Except.ok.injEq, Prod.mk.injEq] at hok
      obtain ⟨rfl, rfl⟩ := hok
      exact ⟨[], by simp, h19, by simp⟩
    · intro ms herr
      simp [outer_loop] at herr
  | cons bi rest ih =>
    intro msgs found h19
    obtain ⟨pok, perr⟩ := pair_loop_inv bi rest msgs found h19
    cases hp : pair_loop bi rest msgs found with
    | error m =>
      constructor
      · intro ms f hok
        simp only [outer_loop, hp] at hok
        exact absurd hok (by simp)
      · intro ms herr
        simp only [outer_loop, hp, Except.error.injEq] at herr
        subst herr
        exact perr m hp
    | ok p =>
      obtain ⟨ms1, f1⟩ := p
      obtain ⟨d1, hms1, hlen1, hall1⟩ := pok ms1 f1 hp
      obtain ⟨hcok, hcerr⟩ := height_check_inv bi ms1 f1 hlen1
      cases hh : height_check bi ms1 f1 with
      | error m =>
        constructor
        · intro ms f hok
          simp only [outer_loop, hp, hh] at hok
          exact absurd hok (by simp)
        · intro ms herr
          simp only [outer_loop, hp, hh, Except.error.injEq] at herr
          subst herr
          obtain ⟨d2, hd2, hlen2, hall2⟩ := hcerr m hh
          subst hms1
          refine ⟨d1 ++ d2, by simpa using hd2, by simpa using hlen2, ?_⟩
          intro x hx
          rcases List.mem_append.mp hx with hx | hx
          · exact hall1 x hx
          · exact hall2 x hx
      | ok q =>
        obtain ⟨ms2, f2⟩ := q
        obtain ⟨d2, hms2, hlen2, hall2⟩ := hcok ms2 f2 hh
        obtain ⟨iok, ierr⟩ := ih ms2 f2 hlen2
        constructor
        · intro ms f hok
          simp only [outer_loop, hp, hh] at hok
          obtain ⟨d3, hms3, hlen3, hall3⟩ := iok ms f hok
          subst hms1; subst hms2
          refine ⟨d1 ++ d2 ++ d3, by simpa using hms3, hlen3, ?_⟩
          intro x hx
          simp only [List.mem_append] at hx
          rcases hx with (hx | hx) | hx
          · exact hall1 x hx
          · exact hall2 x hx
          · exact hall3 x hx
        · intro ms herr
          simp only [outer_loop, hp, hh] at herr
          obtain ⟨d3, hms3, hlen3, hall3⟩ := ierr ms herr
          subst hms1; subst hms2
          refine ⟨d1 ++ d2 ++ d3, by simpa using hms3, by simpa using hlen3, ?_⟩
          intro x hx
          simp only [List.mem_append] at hx
          rcases hx with (hx | hx) | hx
          · exact hall1 x hx
          · exact hall2 x hx
          · exact hall3 x hx

/-- Structural description of every possible output of the validator:
either a truncated run (summary, loop diagnostics filling the list up
to exactly 20, then one truncation notice) or a complete run (summary,
loop diagnostics, optionally one success line). -/
lemma validate_form_layout_cases (entries : List FieldEntry) :
    (∃ d, validate_form_layout entries = Msg.summary entries.length :: d ++ [.truncated] ∧
      (Msg.summary entries.length :: d).length = 20 ∧ ∀ m ∈ d, loop_msg_ok m) ∨
    (∃ d t, validate_form_layout entries = Msg.summary entries.length :: d ++ t ∧
      (Msg.summary entries.length :: d).length ≤ 19 ∧ (∀ m ∈ d, loop_msg_ok m) ∧
      (t = [] ∨ t = [.success])) := by
  obtain ⟨hok, herr⟩ :=
    outer_loop_inv (bounds_list entries) [Msg.summary entries.length] false (by simp)
  simp only [validate_form_layout]
  cases hm : outer_loop (bounds_list entries) [Msg.summary entries.length] false with
  | error ms =>
    left
    obtain ⟨d, hd, hlen, hall⟩ := herr ms hm
    refine ⟨d, ?_, by simpa using hlen, hall⟩
    simpa using hd
  | ok p =>
    obtain ⟨ms, found⟩ := p
    right
    obtain ⟨d, hd, hlen, hall⟩ := hok ms found hm
    subst hd
    by_cases hf : found = true
    · refine ⟨d, [], ?_, by simpa using hlen, hall, Or.inl rfl⟩
      simp [hf]
    · refine ⟨d, [.success], ?_, by simpa using hlen, hall, Or.inr rfl⟩
      simp only [Bool.not_eq_true] at hf
      simp [hf]

lemma trunc_not_mem_of_all_ok (d : List Msg) (h : ∀ m ∈ d, loop_msg_ok m) :
    Msg.truncated ∉ d := fun hm => ((h _ hm).2.1) rfl

/-! ### Concrete layouts used by the claims -/

/-- Two same-page entries whose entry boxes `[0,0,10,10]` and `[10,0,20,10]`
touch at `x = 10`; label boxes are placed far away. -/
def cfg_touch : List FieldEntry :=
  [⟨"A", 1, ⟨100, 100, 101, 101⟩, ⟨0, 0, 10, 10⟩, none⟩,
   ⟨"B", 1, ⟨200, 200, 201, 201⟩, ⟨10, 0, 20, 10⟩, none⟩]

/-- Same layout but with entry boxes `[0,0,10,10]` and `[9,0,20,10]`,
which properly overlap. -/
def cfg_overlap : List FieldEntry :=
  [⟨"A", 1, ⟨100, 100, 101, 101⟩, ⟨0, 0, 10, 10⟩, none⟩,
   ⟨"B", 1, ⟨200, 200, 201, 201⟩, ⟨9, 0, 20, 10⟩, none⟩]

/-- Recognizes the two overlap-diagnostic message forms. -/
def is_overlap_msg : Msg → Bool
  | .overlapSame _ _ _ => true
  | .overlapDiff _ _ _ _ _ _ => true
  | _ => false

/-- The `test_multiple_errors_limit` layout: 25 entries whose label and
entry boxes all mutually overlap on page 1. -/
def ex25 : List FieldEntry :=
  List.replicate 25 ⟨"F", 1, ⟨10, 10, 50, 30⟩, ⟨20, 15, 60, 35⟩, none⟩

/-- Claim C4: `bounds_overlap` reports an overlap iff
`not (a.right <= b.left or a.left >= b.right or a.top <= b.bottom or
a.bottom >= b.top)` — on the stored 4-tuple `(x0, y0, x1, y1)` the x-bounds
are `left = x0`, `right = x1` and the y-bounds are `y0` and `y1` — so boxes
that merely touch at an edge never overlap; `[0,0,10,10]` vs `[10,0,20,10]`
produces no overlap diagnostic while `[0,0,10,10]` vs `[9,0,20,10]`
produces one; and the validator never reports a pair on different pages. -/
theorem bounds_overlap_strict_interval_semantics :
    (∀ a b : Bounds, bounds_overlap a b = true ↔
      ¬(a.x1 ≤ b.x0 ∨ a.x0 ≥ b.x1 ∨ a.y1 ≤ b.y0 ∨ a.y0 ≥ b.y1)) ∧
    (∀ a b : Bounds, (a.x1 = b.x0 ∨ a.x0 = b.x1 ∨ a.y1 = b.y0 ∨ a.y0 = b.y1) →
      bounds_overlap a b = false) ∧
    (validate_form_layout cfg_touch).countP is_overlap_msg = 0 ∧
    (validate_form_layout cfg_overlap).countP is_overlap_msg = 1 ∧
    (∀ entries e1 t1 b1 e2 t2 b2,
      Msg.overlapDiff e1 t1 b1 e2 t2 b2 ∈ validate_form_layout entries →
      e1.page_num = e2.page_num) := by
  refine ⟨?_, ?_, by decide, by decide, ?_⟩
  · intro a b
    simp only [bounds_overlap, Bool.not_eq_true', Bool.or_eq_false_iff,
      decide_eq_false_iff_not, not_le, not_lt, ge_iff_le, Bool.not_eq_false']
    constructor
    · rintro ⟨⟨h1, h2⟩, h3, h4⟩ (h | h | h | h) <;> linarith
    · intro h
      push_neg at h
      obtain ⟨h1, h2, h3, h4⟩ := h
      exact ⟨⟨by linarith, by linarith⟩, by linarith, by linarith⟩
  · intro a b h
    rcases h with h | h | h | h <;> simp [bounds_overlap, h]
  · intro entries e1 t1 b1 e2 t2 b2 hm
    rcases validate_form_layout_cases entries with ⟨d, hv, _, hall⟩ | ⟨d, t, hv, _, hall, ht⟩
    · rw [hv] at hm
      simp only [List.cons_append, List.mem_cons, List.mem_append, List.mem_singleton] at hm
      rcases hm with hm | hm | hm
      · simp at hm
      · exact (hall _ hm).1 e1 t1 b1 e2 t2 b2 rfl
      · simp at hm
    · rw [hv] at hm
      simp only [List.cons_append, List.mem_cons, List.mem_append] at hm
      rcases hm with hm | hm | hm
      · simp at hm
      · exact (hall _ hm).1 e1 t1 b1 e2 t2 b2 rfl
      · rcases ht with rfl | rfl
        · simp at hm
        · simp only [List.mem_singleton] at hm
          simp at hm

/-- Witness for C4: the theorem applied at the touching boxes
`[0,0,10,10]` and `[10,0,20,10]`. -/
theorem bounds_overlap_strict_interval_semantics_witness :
    bounds_overlap ⟨0, 0, 10, 10⟩ ⟨10, 0, 20, 10⟩ = false :=
  bounds_overlap_strict_interval_semantics.2.1 ⟨0, 0, 10, 10⟩ ⟨10, 0, 20, 10⟩ (Or.inl rfl)

/-- Claim C5: the validator's message list never exceeds 21 entries (the
summary line, at most 19 failure diagnostics completing a list of 20, and
one truncation notice), never contains more than one truncation notice, and
on 25 mutually overlapping boxes yields at most 30 messages with exactly
one truncation notice. -/
theorem layout_diagnostics_capped :
    (∀ entries, (validate_form_layout entries).length ≤ 21) ∧
    (∀ entries, (validate_form_layout entries).count Msg.truncated ≤ 1) ∧
    (validate_form_layout ex25).length ≤ 30 ∧
    (validate_form_layout ex25).count Msg.truncated = 1 := by
  refine ⟨?_, ?_, by decide, by decide⟩
  · intro entries
    rcases validate_form_layout_cases entries with ⟨d, hv, hlen, _⟩ | ⟨d, t, hv, hlen, _, ht⟩
    · rw [hv]
      simp at hlen ⊢
      omega
    · rw [hv]
      have htl : t.length ≤ 1 := by rcases ht with rfl | rfl <;> simp
      simp at hlen ⊢
      omega
  · intro entries
    rcases validate_form_layout_cases entries with ⟨d, hv, hlen, hall⟩ | ⟨d, t, hv, hlen, hall, ht⟩
    · rw [hv]
      have hd : Msg.truncated ∉ d := trunc_not_mem_of_all_ok d hall
      simp [List.count_cons, List.count_append, List.count_eq_zero.mpr hd]
    · rw [hv]
      have hd : Msg.truncated ∉ d := trunc_not_mem_of_all_ok d hall
      have htc : t.count Msg.truncated = 0 := by
        rcases ht with rfl | rfl <;> simp
      simp [List.count_cons, List.count_append, List.count_eq_zero.mpr hd, htc]

/-! ## apply_text_overlays.py -/

/-- `convert_image_to_pdf_coords(bbox, img_width, img_height, pdf_width,
pdf_height)`: scale x by `pdf_width / img_width`, scale and flip y by
`pdf_height - y * (pdf_height / img_height)`, returned as
`(left, bottom, right, top)`. -/
def convert_image_to_pdf_coords (bbox : Bounds) (img_width img_height pdf_width pdf_height : ℚ) :
    ℚ × ℚ × ℚ × ℚ :=
  let x_scale := pdf_width / img_width
  let y_scale := pdf_height / img_height
  let left := bbox.x0 * x_scale
  let right := bbox.x1 * x_scale
  let top := pdf_height - bbox.y0 * y_scale
  let bottom := pdf_height - bbox.y1 * y_scale
  (left, bottom, right, top)

/-- The code-point test inside `has_cjk_characters`, range by range in the
source's order. -/
def is_cjk_code (code : Nat) : Bool :=
  (decide (0x4E00 ≤ code) && decide (code ≤ 0x9FFF)) ||
  (decide (0x3400 ≤ code) && decide (code ≤ 0x4DBF)) ||
  (decide (0x3000 ≤ code) && decide (code ≤ 0x303F)) ||
  (decide (0xFF00 ≤ code) && decide (code ≤ 0xFFEF)) ||
  (decide (0x3040 ≤ code) && decide (code ≤ 0x309F)) ||
  (decide (0x30A0 ≤ code) && decide (code ≤ 0x30FF)) ||
  (decide (0xAC00 ≤ code) && decide (code ≤ 0xD7AF))

/-- `has_cjk_characters(text)`: some character's code point lies in one of
the seven ranges. -/
def has_cjk_characters (text : String) : Bool :=
  text.data.any fun ch => is_cjk_code ch.toNat

/-- The `CJK_FONT_PATHS` table, in source order (macOS, Windows, Linux). -/
def CJK_FONT_PATHS : List (String × String) :=
  [("/System/Library/Fonts/PingFang.ttc", "PingFang"),
   ("/System/Library/Fonts/STHeiti Light.ttc", "STHeiti"),
   ("/Library/Fonts/Arial Unicode.ttf", "ArialUnicode"),
   ("C:/Windows/Fonts/msyh.ttc", "MicrosoftYaHei"),
   ("C:/Windows/Fonts/simsun.ttc", "SimSun"),
   ("C:/Windows/Fonts/simhei.ttf", "SimHei"),
   ("/usr/share/fonts/truetype/droid/DroidSansFallbackFull.ttf", "DroidSansFallback"),
   ("/usr/share/fonts/opentype/noto/NotoSansCJK-Regular.ttc", "NotoSansCJK"),
   ("/usr/share/fonts/truetype/wqy/wqy-zenhei.ttc", "WenQuanYi")]

/-- `find_cjk_font()`: first table entry whose path exists on the host
(`path_exists` stands for `os.path.exists`). -/
def find_cjk_font (path_exists : String → Bool) : Option (String × String) :=
  CJK_FONT_PATHS.find? fun p => path_exists p.1

/-- `register_cjk_font()`: `None` when no font path exists or when
`pdfmetrics.registerFont` raises (`register_ok font_name font_path` stands
for that call succeeding). -/
def register_cjk_font (path_exists : String → Bool) (register_ok : String → String → Bool) :
    Option String :=
  match find_cjk_font path_exists with
  | some (font_path, font_name) => if register_ok font_name font_path then some font_name else none
  | none => none

/-- One element of `config["page_dimensions"]`. -/
structure PageDim where
  page_num : Int
  img_width : ℚ
  img_height : ℚ
deriving DecidableEq, Repr

/-- The decoded `form_config.json`. -/
structure Config where
  field_entries : List FieldEntry
  page_dimensions : List PageDim
deriving DecidableEq, Repr

/-- The per-entry test of the `has_cjk` scan:
`"text_content" in entry and "content" in entry["text_content"] and
has_cjk_characters(entry["text_content"]["content"])`. -/
def entry_cjk (e : FieldEntry) : Bool :=
  match e.text_content with
  | some tc =>
    match tc.content with
    | some s => has_cjk_characters s
    | none => false
  | none => false

/-- The document-wide CJK scan over `config["field_entries"]` (the Python
loop breaks at the first hit; `List.any` is its pure equivalent). -/
def config_has_cjk (entries : List FieldEntry) : Bool :=
  entries.any entry_cjk

/-- Lookup in the `pdf_dims` dict `{page_idx + 1 : [width, height]}` built
from the reader's pages; a missing key is a `KeyError` at the call site. -/
def pdf_dim_lookup (pdf_pages : List (ℚ × ℚ)) (page_num : Int) : Option (ℚ × ℚ) :=
  if 1 ≤ page_num then pdf_pages.get? (page_num - 1).toNat else none

/-- The data handed to pypdf's `FreeText` in the default strategy.  Python
formats `font_size` as `str(size) + "pt"`; the numeric size is modelled. -/
structure FreeTextOverlay where
  text : String
  rect : ℚ × ℚ × ℚ × ℚ
  font : String
  font_size : ℚ
  font_color : String
deriving DecidableEq, Repr

/-- The `FreeText(...)` construction in the annotation loop, with the
source's defaults `font="Arial"`, `text_size=14`, `text_color="000000"`. -/
def make_free_text (content : String) (rect : ℚ × ℚ × ℚ × ℚ) (tc : TextContent) :
    FreeTextOverlay :=
  { text := content, rect := rect, font := tc.font.getD "Arial",
    font_size := tc.text_size.getD 14, font_color := tc.text_color.getD "000000" }

/-- The default-strategy loop over `config["field_entries"]`: resolve page
dimensions (a missing `page_dimensions` record is a `StopIteration`, a page
number outside the document a `KeyError`, zero image dimensions a
`ZeroDivisionError` — all modelled as `.error`), transform the entry box,
skip empty fields, and emit one free-text overlay per non-empty field. -/
def overlay_loop (page_dims : List PageDim) (pdf_pages : List (ℚ × ℚ)) :
    List FieldEntry → Except Unit (List (Int × FreeTextOverlay))
  | [] => .ok []
  | e :: rest =>
    match page_dims.find? fun p => p.page_num = e.page_num with
    | none => .error ()
    | some pinfo =>
      match pdf_dim_lookup pdf_pages e.page_num with
      | none => .error ()
      | some pq =>
        if pinfo.img_width = 0 ∨ pinfo.img_height = 0 then .error ()
        else
          match e.text_content with
          | none => overlay_loop page_dims pdf_pages rest
          | some tc =>
            match tc.content with
            | none => overlay_loop page_dims pdf_pages rest
            | some content =>
              if content = "" then overlay_loop page_dims pdf_pages rest
              else
                match overlay_loop page_dims pdf_pages rest with
                | .error u => .error u
                | .ok anns =>
                  .ok ((e.page_num,
                    make_free_text content
                      (convert_image_to_pdf_coords e.entry_bounds pinfo.img_width
                        pinfo.img_height pq.1 pq.2) tc) :: anns)

/-- One `drawString` issued on the reportlab canvas. -/
structure DrawOp where
  x : ℚ
  y : ℚ
  text : String
  font : String
  size : ℚ
  color : String
deriving DecidableEq, Repr

/-- Append `e` to the page group for `p`, creating the group at the end on
first sight — Python dict insertion-order semantics. -/
def upsert_page (acc : List (Int × List FieldEntry)) (p : Int) (e : FieldEntry) :
    List (Int × List FieldEntry) :=
  if acc.any fun q => q.1 = p then
    acc.map fun q => if q.1 = p then (q.1, q.2 ++ [e]) else q
  else acc ++ [(p, [e])]

/-- Python's truthiness test on the optional content string. -/
def entry_has_content (e : FieldEntry) : Bool :=
  match e.text_content with
  | some tc =>
    match tc.content with
    | some s => !(s = "")
    | none => false
  | none => false

/-- The `entries_by_page` grouping at the top of
`apply_text_overlays_with_reportlab`. -/
def group_by_page (entries : List FieldEntry) : List (Int × List FieldEntry) :=
  entries.foldl (fun acc e => if entry_has_content e then upsert_page acc e.page_num e else acc) []

/-- One entry's contribution inside the reportlab per-page loop:
`text_size`/`text_color` defaults, coordinate transform, CJK-aware font
choice with `Helvetica` fallback (`font_known` stands for `c.setFont` not
raising, `color_ok` for `HexColor` parsing), and the `drawString` at
`(left, bottom)`. -/
def reportlab_entry_op (cjk_font : String) (font_known color_ok : String → Bool)
    (pinfo : PageDim) (pw ph : ℚ) (e : FieldEntry) : Except Unit DrawOp :=
  match e.text_content with
  | none => .error ()
  | some tc =>
    match tc.content with
    | none => .error ()
    | some content =>
      if pinfo.img_width = 0 ∨ pinfo.img_height = 0 then .error ()
      else
        let r := convert_image_to_pdf_coords e.entry_bounds pinfo.img_width pinfo.img_height pw ph
        .ok { x := r.1, y := r.2.1, text := content,
              font :=
                if has_cjk_characters content then cjk_font
                else if font_known (tc.font.getD "Helvetica") then tc.font.getD "Helvetica"
                else "Helvetica",
              size := tc.text_size.getD 14,
              color :=
                if color_ok (tc.text_color.getD "000000") then tc.text_color.getD "000000"
                else "000000" }

/-- One page of the reportlab strategy: page-dimension lookups (failures
are `KeyError`/`StopIteration`), then the canvas draw loop. -/
def reportlab_page (cjk_font : String) (font_known color_ok : String → Bool)
    (page_dims : List PageDim) (pdf_pages : List (ℚ × ℚ)) (page_num : Int)
    (entries : List FieldEntry) : Except Unit (List DrawOp) :=
  match pdf_dim_lookup pdf_pages page_num with
  | none => .error ()
  | some pq =>
    match page_dims.find? fun p => p.page_num = page_num with
    | none => .error ()
    | some pinfo => entries.mapM (reportlab_entry_op cjk_font font_known color_ok pinfo pq.1 pq.2)

/-- `apply_text_overlays_with_reportlab`, as the list of per-page draw
batches merged into the writer. -/
def reportlab_render (cfg : Config) (pdf_pages : List (ℚ × ℚ)) (cjk_font : String)
    (font_known color_ok : String → Bool) : Except Unit (List (Int × List DrawOp)) :=
  (group_by_page cfg.field_entries).mapM fun pg =>
    (reportlab_page cjk_font font_known color_ok cfg.page_dimensions pdf_pages pg.1 pg.2).map
      fun ops => (pg.1, ops)

/-- Observable outcome of `apply_text_overlays`: the output PDF written via
the default free-text strategy, written via the reportlab embedded-font
strategy, the `sys.exit(1)` when CJK text is present but no CJK font
registers, or an uncaught exception. -/
inductive OverlayOutcome where
  | wroteTexts (texts : List (Int × FreeTextOverlay))
  | wroteEmbedded (font : String) (ops : List (Int × List DrawOp))
  | abortNoFont
  | crashed
deriving DecidableEq, Repr

/-- Whether an outcome wrote the output PDF. -/
def output_written : OverlayOutcome → Bool
  | .wroteTexts _ => true
  | .wroteEmbedded _ _ => true
  | .abortNoFont => false
  | .crashed => false

/-- `apply_text_overlays`: scan for CJK text; if found, register a CJK font
and run the reportlab strategy (aborting the run when no font registers);
otherwise run the free-text default strategy. -/
def apply_text_overlays (cfg : Config) (pdf_pages : List (ℚ × ℚ))
    (path_exists : String → Bool) (register_ok : String → String → Bool)
    (font_known color_ok : String → Bool) : OverlayOutcome :=
  if config_has_cjk cfg.field_entries then
    match register_cjk_font path_exists register_ok with
    | some font_name =>
      match reportlab_render cfg pdf_pages font_name font_known color_ok with
      | .ok ops => .wroteEmbedded font_name ops
      | .error _ => .crashed
    | none => .abortNoFont
  else
    match overlay_loop cfg.page_dimensions pdf_pages cfg.field_entries with
    | .ok anns => .wroteTexts anns
    | .error _ => .crashed

/-! ### CJK-scan helper lemmas -/

lemma entry_cjk_iff (e : FieldEntry) : entry_cjk e = true ↔
    ∃ tc, e.text_content = some tc ∧ ∃ s, tc.content = some s ∧
      has_cjk_characters s = true := by
  unfold entry_cjk
  cases h1 : e.text_content with
  | none => simp
  | some tc =>
    cases h2 : tc.content with
    | none => simp [h2]
    | some s => simp [h2]

lemma is_cjk_code_iff (n : ℕ) : is_cjk_code n = true ↔
    ((0x3000 ≤ n ∧ n ≤ 0x303F) ∨ (0x3040 ≤ n ∧ n ≤ 0x309F) ∨
     (0x30A0 ≤ n ∧ n ≤ 0x30FF) ∨ (0x3400 ≤ n ∧ n ≤ 0x4DBF) ∨
     (0x4E00 ≤ n ∧ n ≤ 0x9FFF) ∨ (0xAC00 ≤ n ∧ n ≤ 0xD7AF) ∨
     (0xFF00 ≤ n ∧ n ≤ 0xFFEF)) := by
  simp only [is_cjk_code, Bool.or_eq_true, Bool.and_eq_true, decide_eq_true_eq]
  tauto

lemma has_cjk_characters_iff (s : String) :
    has_cjk_characters s = true ↔ ∃ c ∈ s.data, is_cjk_code c.toNat = true := by
  simp [has_cjk_characters]

/-- Claim C6: `convert_image_to_pdf_coords` computes, for positive
image/page dimensions, `left = x0 * page_w / image_w`,
`right = x1 * page_w / image_w`, `top = page_h - y0 * page_h / image_h`,
`bottom = page_h - y1 * page_h / image_h`, returned as
`(left, bottom, right, top)`; the image box `[0,0,100,50]` in a 200×100
image on a 400×200-pt page yields left 0, bottom 100, right 200, top 200. -/
theorem convert_image_to_pdf_coords_spec :
    (∀ (bbox : Bounds) (img_w img_h page_w page_h : ℚ),
      0 < img_w → 0 < img_h → 0 < page_w → 0 < page_h →
      convert_image_to_pdf_coords bbox img_w img_h page_w page_h =
        (bbox.x0 * page_w / img_w, page_h - bbox.y1 * page_h / img_h,
         bbox.x1 * page_w / img_w, page_h - bbox.y0 * page_h / img_h)) ∧
    convert_image_to_pdf_coords ⟨0, 0, 100, 50⟩ 200 100 400 200 = (0, 100, 200, 200) := by
  constructor
  · intro bbox img_w img_h page_w page_h _ _ _ _
    simp only [convert_image_to_pdf_coords, Prod.mk.injEq]
    refine ⟨by ring, by ring, by ring, by ring⟩
  · simp only [convert_image_to_pdf_coords, Prod.mk.injEq]
    norm_num

/-- Witness for C6: the theorem applied to the claim's worked example. -/
theorem convert_image_to_pdf_coords_spec_witness :
    convert_image_to_pdf_coords ⟨0, 0, 100, 50⟩ 200 100 400 200 =
      ((0 : ℚ) * 400 / 200, 200 - 50 * 200 / 100, 100 * 400 / 200, 200 - 0 * 200 / 100) :=
  convert_image_to_pdf_coords_spec.1 ⟨0, 0, 100, 50⟩ 200 100 400 200
    (by norm_num) (by norm_num) (by norm_num) (by norm_num)

/-- Claim C2: the rendering strategy is document-wide and decided solely by
the glyph scan: the scan fires iff some entry's `text_content.content`
holds a code point in U+3000–303F, U+3040–309F, U+30A0–30FF, U+3400–4DBF,
U+4E00–9FFF, U+AC00–D7AF or U+FF00–FFEF; when it fires the free-text
(default) strategy is never used and (given a registered font and a clean
render) the whole document goes through the reportlab embedded-glyph
strategy; when it does not fire the embedded-glyph path is never entered,
the run never aborts for want of a font, and a clean render writes the
free-text overlays. -/
theorem overlay_strategy_document_wide (cfg : Config) (pdf_pages : List (ℚ × ℚ))
    (path_exists : String → Bool) (register_ok : String → String → Bool)
    (font_known color_ok : String → Bool) :
    (config_has_cjk cfg.field_entries = true ↔
      ∃ e ∈ cfg.field_entries, ∃ tc, e.text_content = some tc ∧
        ∃ s, tc.content = some s ∧ ∃ c ∈ s.data,
          ((0x3000 ≤ c.toNat ∧ c.toNat ≤ 0x303F) ∨ (0x3040 ≤ c.toNat ∧ c.toNat ≤ 0x309F) ∨
           (0x30A0 ≤ c.toNat ∧ c.toNat ≤ 0x30FF) ∨ (0x3400 ≤ c.toNat ∧ c.toNat ≤ 0x4DBF) ∨
           (0x4E00 ≤ c.toNat ∧ c.toNat ≤ 0x9FFF) ∨ (0xAC00 ≤ c.toNat ∧ c.toNat ≤ 0xD7AF) ∨
           (0xFF00 ≤ c.toNat ∧ c.toNat ≤ 0xFFEF))) ∧
    (config_has_cjk cfg.field_entries = true →
      (∀ texts, apply_text_overlays cfg pdf_pages path_exists register_ok font_known color_ok ≠
        .wroteTexts texts) ∧
      (∀ f ops, register_cjk_font path_exists register_ok = some f →
        reportlab_render cfg pdf_pages f font_known color_ok = .ok ops →
        apply_text_overlays cfg pdf_pages path_exists register_ok font_known color_ok =
          .wroteEmbedded f ops)) ∧
    (config_has_cjk cfg.field_entries = false →
      (∀ f ops, apply_text_overlays cfg pdf_pages path_exists register_ok font_known color_ok ≠
        .wroteEmbedded f ops) ∧
      apply_text_overlays cfg pdf_pages path_exists register_ok font_known color_ok ≠
        .abortNoFont ∧
      (∀ texts, overlay_loop cfg.page_dimensions pdf_pages cfg.field_entries = .ok texts →
        apply_text_overlays cfg pdf_pages path_exists register_ok font_known color_ok =
          .wroteTexts texts)) := by
  refine ⟨?_, ?_, ?_⟩
  · simp only [config_has_cjk, List.any_eq_true]
    refine exists_congr fun e => and_congr_right fun _ => ?_
    rw [entry_cjk_iff]
    refine exists_congr fun tc => and_congr_right fun _ => ?_
    refine exists_congr fun s => and_congr_right fun _ => ?_
    rw [has_cjk_characters_iff]
    exact exists_congr fun c => and_congr_right fun _ => is_cjk_code_iff c.toNat
  · intro h
    constructor
    · intro texts
      cases hr : register_cjk_font path_exists register_ok with
      | none => simp [apply_text_overlays, h, hr]
      | some f =>
        cases hrr : reportlab_render cfg pdf_pages f font_known color_ok with
        | error u => simp [apply_text_overlays, h, hr, hrr]
        | ok ops => simp [apply_text_overlays, h, hr, hrr]
    · intro f ops hr hrr
      simp [apply_text_overlays, h, hr, hrr]
  · intro h
    refine ⟨?_, ?_, ?_⟩
    · intro f ops
      cases ho : overlay_loop cfg.page_dimensions pdf_pages cfg.field_entries with
      | error u => simp [apply_text_overlays, h, ho]
      | ok texts => simp [apply_text_overlays, h, ho]
    · cases ho : overlay_loop cfg.page_dimensions pdf_pages cfg.field_entries with
      | error u => simp [apply_text_overlays, h, ho]
      | ok texts => simp [apply_text_overlays, h, ho]
    · intro texts ho
      simp [apply_text_overlays, h, ho]

/-- Witness for C2: a one-entry document whose content is "中" (U+4E2D)
with an existing, registering font renders through the embedded-glyph
strategy. -/
theorem overlay_strategy_document_wide_witness :
    apply_text_overlays
      ⟨[⟨"N", 1, ⟨0, 0, 1, 1⟩, ⟨2, 2, 3, 3⟩, some { content := some "中" }⟩], [⟨1, 100, 100⟩]⟩
      [(200, 200)] (fun _ => true) (fun _ _ => true) (fun _ => true) (fun _ => true) =
    .wroteEmbedded "PingFang"
      [(1, [⟨(2 : ℚ) * (200 / 100), 200 - 3 * (200 / 100), "中", "PingFang", 14, "000000"⟩])] := by
  refine (overlay_strategy_document_wide
    ⟨[⟨"N", 1, ⟨0, 0, 1, 1⟩, ⟨2, 2, 3, 3⟩, some { content := some "中" }⟩], [⟨1, 100, 100⟩]⟩
    [(200, 200)] (fun _ => true) (fun _ _ => true) (fun _ => true) (fun _ => true)).2.1
    (by decide) |>.2 "PingFang" _ (by decide) ?_
  simp [reportlab_render, group_by_page, entry_has_content, upsert_page, reportlab_page,
    pdf_dim_lookup, reportlab_entry_op, convert_image_to_pdf_coords, has_cjk_characters,
    is_cjk_code, List.mapM, List.mapM.loop, Except.map, Except.pure, bind, Except.bind, pure]

/-- Claim C3: with wide-glyph content present, if the font probe finds no
path or registering the found font fails, the run ends at the
`sys.exit(1)` abort and no output PDF is written. -/
theorem overlay_abort_without_cjk_font (cfg : Config) (pdf_pages : List (ℚ × ℚ))
    (path_exists : String → Bool) (register_ok : String → String → Bool)
    (font_known color_ok : String → Bool)
    (hcjk : config_has_cjk cfg.field_entries = true)
    (hfont : find_cjk_font path_exists = none ∨
      ∃ p n, find_cjk_font path_exists = some (p, n) ∧ register_ok n p = false) :
    apply_text_overlays cfg pdf_pages path_exists register_ok font_known color_ok =
      .abortNoFont ∧
    output_written
      (apply_text_overlays cfg pdf_pages path_exists register_ok font_known color_ok) = false := by
  have hreg : register_cjk_font path_exists register_ok = none := by
    rcases hfont with hf | ⟨p, n, hf, hro⟩
    · simp [register_cjk_font, hf]
    · simp [register_cjk_font, hf, hro]
  have habort : apply_text_overlays cfg pdf_pages path_exists register_ok font_known color_ok =
      .abortNoFont := by
    simp [apply_text_overlays, hcjk, hreg]
  exact ⟨habort, by rw [habort]; rfl⟩

/-- Witness for C3: the "中" document on a host with no font paths. -/
theorem overlay_abort_without_cjk_font_witness :
    apply_text_overlays
      ⟨[⟨"N", 1, ⟨0, 0, 1, 1⟩, ⟨2, 2, 3, 3⟩, some { content := some "中" }⟩], [⟨1, 100, 100⟩]⟩
      [(200, 200)] (fun _ => false) (fun _ _ => true) (fun _ => true) (fun _ => true) =
    .abortNoFont :=
  (overlay_abort_without_cjk_font
    ⟨[⟨"N", 1, ⟨0, 0, 1, 1⟩, ⟨2, 2, 3, 3⟩, some { content := some "中" }⟩], [⟨1, 100, 100⟩]⟩
    [(200, 200)] (fun _ => false) (fun _ _ => true) (fun _ => true) (fun _ => true)
    (by decide) (Or.inl (by decide))).1

/-- The entry used by C10's concrete example: entry box of height 10 with
`text_content = {}`. -/
def entry_empty_tc : FieldEntry :=
  ⟨"N", 1, ⟨10, 10, 50, 30⟩, ⟨60, 10, 150, 20⟩, some {}⟩

/-- Claim C10 (implicit): when `text_content` is present but has no
`text_size`, both the validator's height check and the overlay renderer
(free-text construction and reportlab draw) substitute the default size 14;
in particular an entry box of height 10 with `text_content = {}` receives a
failing height diagnostic carrying size 14. -/
theorem default_text_size_fourteen :
    (∀ bi : BoundsAndEntry, bi.bounds_type = "输入" →
      ∀ tc, bi.entry.text_content = some tc → tc.text_size = none →
      ∀ (msgs : List Msg) (found : Bool), msgs.length ≤ 18 →
        (bi.bounds.y1 - bi.bounds.y0 < 14 →
          height_check bi msgs found =
            .ok (msgs ++ [Msg.heightFail bi.entry (bi.bounds.y1 - bi.bounds.y0) 14], true)) ∧
        (¬ bi.bounds.y1 - bi.bounds.y0 < 14 →
          height_check bi msgs found = .ok (msgs, found))) ∧
    (∀ content rect tc, tc.text_size = none →
      (make_free_text content rect tc).font_size = 14) ∧
    (∀ cjk_font font_known color_ok pinfo pw ph e tc op,
      e.text_content = some tc → tc.text_size = none →
      reportlab_entry_op cjk_font font_known color_ok pinfo pw ph e = .ok op →
      op.size = 14) ∧
    (Msg.heightFail entry_empty_tc ((20 : ℚ) - 10) 14 ∈
      validate_form_layout [entry_empty_tc]) := by
  refine ⟨?_, ?_, ?_, ?_⟩
  · intro bi ht tc htc hts msgs found h18
    constructor
    · intro hlt
      unfold height_check
      rw [if_pos ht]
      simp only [htc, hts]
      rw [if_pos (by simpa using hlt)]
      rw [if_neg (by simp; omega)]
      simp
    · intro hge
      unfold height_check
      rw [if_pos ht]
      simp only [htc, hts]
      rw [if_neg (by simpa using hge)]
  · intro content rect tc hts
    simp [make_free_text, hts]
  · intro cjk_font font_known color_ok pinfo pw ph e tc op htc hts hop
    unfold reportlab_entry_op at hop
    rw [htc] at hop
    cases hcontent : tc.content with
    | none => simp [hcontent] at hop
    | some content =>
      simp only [hcontent] at hop
      by_cases hz : pinfo.img_width = 0 ∨ pinfo.img_height = 0
      · rw [if_pos hz] at hop
        simp at hop
      · rw [if_neg hz] at hop
        simp only [Except.ok.injEq] at hop
        subst hop
        simp [hts]
  · have hb : bounds_overlap ⟨10, 10, 50, 30⟩ ⟨60, 10, 150, 20⟩ = false := by decide
    have hlt : ((20 : ℚ) - 10) < 14 := by norm_num
    simp [validate_form_layout, bounds_list, entry_empty_tc, outer_loop, pair_loop,
      height_check, hb, hlt, List.enum]

/-- Witness for C10: the height check on the concrete entry with empty
`text_content`, run on an empty message list. -/
theorem default_text_size_fourteen_witness :
    height_check ⟨⟨60, 10, 150, 20⟩, "输入", 0, entry_empty_tc⟩ [] false =
      .ok ([Msg.heightFail entry_empty_tc ((20 : ℚ) - 10) 14], true) := by
  have h := (default_text_size_fourteen.1 ⟨⟨60, 10, 150, 20⟩, "输入", 0, entry_empty_tc⟩
    rfl {} (by rfl) rfl [] false (by simp)).1 (by norm_num)
  simpa using h

/-! ## parse_form_structure.py -/

/-- A value of a field's `"/_States_"` list: plain state names (button
fields) or `[export_value, display_text]` pairs (choice fields). -/
inductive PdfState where
  | str (s : String)
  | pair (a b : String)
deriving DecidableEq, Repr

/-- Python subscripting `state[i]`: component of a pair, or the i-th
character of a string (as a 1-character string); out of range raises. -/
def state_get (st : PdfState) (i : Nat) : Option String :=
  match st with
  | .pair a b => if i = 0 then some a else if i = 1 then some b else none
  | .str s => (s.data.get? i).map fun c => String.singleton c

/-- A field record from `reader.get_fields()`: its `'/FT'` value, its
`"/_States_"` list (default `[]`), and the truthiness of `"/Kids"`. -/
structure PdfField where
  ft : Option String := none
  states : List PdfState := []
  has_kids : Bool := false
deriving DecidableEq, Repr

/-- `{"option_value": state[0], "display_text": state[1]}`. -/
structure MenuItem where
  option_value : String
  display_text : String
deriving DecidableEq, Repr

/-- `{"option_value": ..., "bounds": ...}` under `available_options`. -/
structure OptionEntry where
  option_value : String
  bounds : Option Bounds := none
deriving DecidableEq, Repr

/-- A published form element; optional keys are `Option`-valued and present
iff the source dict carries them. -/
structure ElementDict where
  element_id : String
  element_type : String
  on_value : Option PdfState := none
  off_value : Option PdfState := none
  menu_items : Option (List MenuItem) := none
  available_options : Option (List OptionEntry) := none
  page_num : Option Int := none
  bounds : Option Bounds := none
deriving DecidableEq, Repr

/-- Python's f-string rendering of the `'/FT'` value. -/
def ft_repr : Option String → String
  | some s => s
  | none => "None"

/-- The menu-item comprehension body; a state too short to subscript is a
raised `IndexError`. -/
def state_menu_item (st : PdfState) : Except Unit MenuItem :=
  match state_get st 0, state_get st 1 with
  | some v, some l => .ok ⟨v, l⟩
  | _, _ => .error ()

/-- `build_element_dict(field, element_id)`: classify by `'/FT'`; a button
field with exactly two states resolves `on_value`/`off_value` around the
`"/Off"` sentinel (positionally, with a printed warning, when the sentinel
is absent), while any other state count leaves both keys absent. -/
def build_element_dict (field : PdfField) (element_id : String) : Except Unit ElementDict :=
  if field.ft = some "/Tx" then
    .ok { element_id := element_id, element_type := "text_input" }
  else if field.ft = some "/Btn" then
    if field.states.length = 2 then
      if PdfState.str "/Off" ∈ field.states then
        .ok { element_id := element_id, element_type := "toggle_box",
              on_value := some (if field.states.getD 0 (.str "") ≠ PdfState.str "/Off" then
                field.states.getD 0 (.str "") else field.states.getD 1 (.str "")),
              off_value := some (.str "/Off") }
      else
        .ok { element_id := element_id, element_type := "toggle_box",
              on_value := some (field.states.getD 0 (.str "")),
              off_value := some (field.states.getD 1 (.str "")) }
    else
      .ok { element_id := element_id, element_type := "toggle_box" }
  else if field.ft = some "/Ch" then
    match field.states.mapM state_menu_item with
    | .ok items =>
      .ok { element_id := element_id, element_type := "dropdown", menu_items := some items }
    | .error u => .error u
  else
    .ok { element_id := element_id, element_type := "unknown (" ++ ft_repr field.ft ++ ")" }

/-- A page annotation: its `'/T'`-name chain from the annotation up through
`'/Parent'` links, its `'/Rect'`, and the key set of `ann['/AP']['/N']`
(`none` when that lookup raises `KeyError`). -/
structure PdfAnnot where
  chain : List (Option String)
  rect : Option Bounds := none
  ap_n : Option (List String) := none
deriving DecidableEq, Repr

/-- `build_complete_element_id(annotation)`: collect the `'/T'` names along
the parent chain and join them root-to-leaf with `"."`; `None` when no
level carries a name. -/
def build_complete_element_id (ann : PdfAnnot) : Option String :=
  if (ann.chain.filterMap id).isEmpty then none
  else some (String.intercalate "." (ann.chain.filterMap id).reverse)

/-- A document as `parse_form_elements` consumes it: the `get_fields()`
dict (insertion-ordered) and the per-page annotation lists. -/
structure PdfDoc where
  fields : List (String × PdfField)
  pages : List (List PdfAnnot)
deriving DecidableEq, Repr

/-- Python dict assignment `d[k] = v` on an insertion-ordered dict. -/
def dict_set (d : List (String × ElementDict)) (k : String) (v : ElementDict) :
    List (String × ElementDict) :=
  if d.any fun p => p.1 = k then d.map fun p => if p.1 = k then (k, v) else p
  else d ++ [(k, v)]

/-- Python `set.add` (first-insertion order is irrelevant for membership). -/
def set_add (s : List String) (k : String) : List String :=
  if k ∈ s then s else s ++ [k]

/-- The first loop of `parse_form_elements`: container fields with kids are
skipped (button containers noted as potential option groups); every other
field is classified into `elements_by_id`. -/
def init_elements_loop :
    List (String × PdfField) → List (String × ElementDict) → List String →
    Except Unit (List (String × ElementDict) × List String)
  | [], els, groups => .ok (els, groups)
  | (element_id, field) :: rest, els, groups =>
    if field.has_kids then
      if field.ft = some "/Btn" then init_elements_loop rest els (set_add groups element_id)
      else init_elements_loop rest els groups
    else
      match build_element_dict field element_id with
      | .error u => .error u
      | .ok d => init_elements_loop rest (dict_set els element_id d) groups

/-- `elements_by_id[eid]["page_num"] = page_idx + 1` and `["bounds"] = rect`. -/
def set_page_bounds (els : List (String × ElementDict)) (k : String) (page : Int)
    (b : Option Bounds) : List (String × ElementDict) :=
  els.map fun p =>
    if p.1 = k then (p.1, { p.2 with page_num := some page, bounds := b }) else p

/-- The fresh record created on first sight of an option group, stamped
with the page of its first option. -/
def new_option_group (k : String) (page : Int) : ElementDict :=
  { element_id := k, element_type := "option_group", page_num := some page,
    available_options := some [] }

/-- `option_groups_by_id[eid]["available_options"].append({...})`. -/
def add_option (e : ElementDict) (v : String) (b : Option Bounds) : ElementDict :=
  { e with available_options := some ((e.available_options.getD []) ++ [⟨v, b⟩]) }

/-- Create the option-group record on first sight (stamped with the current
page) and append one `{option_value, bounds}` entry. -/
def push_option (ogs : List (String × ElementDict)) (k : String) (page : Int)
    (v : String) (b : Option Bounds) : List (String × ElementDict) :=
  let ogs' :=
    if ogs.any fun p => p.1 = k then ogs
    else ogs ++ [(k, new_option_group k page)]
  ogs'.map fun p => if p.1 = k then (p.1, add_option p.2 v b) else p

/-- Handling of one page annotation: attach page/bounds to a known leaf, or
record one selectable option under a known option-group container when the
appearance states hold exactly one non-`"/Off"` value. -/
def process_ann (groups : List String) (page_idx : Nat) (ann : PdfAnnot)
    (st : List (String × ElementDict) × List (String × ElementDict)) :
    List (String × ElementDict) × List (String × ElementDict) :=
  match build_complete_element_id ann with
  | none => st
  | some element_id =>
    if st.1.any fun p => p.1 = element_id then
      (set_page_bounds st.1 element_id (page_idx + 1) ann.rect, st.2)
    else if element_id ∈ groups then
      match ann.ap_n with
      | none => st
      | some states =>
        match states.filter (fun v => v ≠ "/Off") with
        | [active] => (st.1, push_option st.2 element_id (page_idx + 1) active ann.rect)
        | _ => st
    else st

/-- One page's annotation loop. -/
def process_page_anns (groups : List String) (page_idx : Nat) :
    List PdfAnnot → List (String × ElementDict) × List (String × ElementDict) →
    List (String × ElementDict) × List (String × ElementDict)
  | [], st => st
  | ann :: rest, st => process_page_anns groups page_idx rest (process_ann groups page_idx ann st)

/-- The `for page_idx, pg in enumerate(reader.pages)` loop. -/
def process_pages (groups : List String) :
    List (List PdfAnnot) → Nat → List (String × ElementDict) × List (String × ElementDict) →
    List (String × ElementDict) × List (String × ElementDict)
  | [], _, st => st
  | pg :: rest, page_idx, st =>
    process_pages groups rest (page_idx + 1) (process_page_anns groups page_idx pg st)

/-- `sort_key(elem)`: `[page_num, [-bounds[1], bounds[0]]]`, the bounds
taken from the first recorded option for an option group, with `[0,0,0,0]`
substituted for a missing rectangle. -/
def sort_key (elem : ElementDict) : Int × ℚ × ℚ :=
  match elem.available_options with
  | some opts =>
    match opts.head? with
    | some o =>
      match o.bounds with
      | some b => (elem.page_num.getD 0, -b.y0, b.x0)
      | none => (elem.page_num.getD 0, 0, 0)
    | none => (elem.page_num.getD 0, 0, 0)
  | none =>
    match elem.bounds with
    | some b => (elem.page_num.getD 0, -b.y0, b.x0)
    | none => (elem.page_num.getD 0, 0, 0)

/-- Lexicographic comparison of Python's `[page, [-y, x]]` sort keys. -/
def key_le (a b : Int × ℚ × ℚ) : Bool :=
  decide (a.1 < b.1) ||
  (decide (a.1 = b.1) &&
    (decide (a.2.1 < b.2.1) || (decide (a.2.1 = b.2.1) && decide (a.2.2 ≤ b.2.2))))

/-- The element order `list.sort(key=sort_key)` establishes. -/
def elem_le (a b : ElementDict) : Prop :=
  key_le (sort_key a) (sort_key b) = true

instance : DecidableRel elem_le := fun a b =>
  inferInstanceAs (Decidable (key_le (sort_key a) (sort_key b) = true))

/-- `parse_form_elements(reader)`.  Python's `list.sort` is a stable sort
by `sort_key`; a stable sort's output is uniquely determined by the key, so
the stable `List.insertionSort` is an exact embedding of it. -/
def parse_form_elements (doc : PdfDoc) : Except Unit (List ElementDict) :=
  match init_elements_loop doc.fields [] [] with
  | .error u => .error u
  | .ok (els, groups) =>
    let st := process_pages groups doc.pages 0 (els, [])
    let elements_with_location := (st.1.map fun p => p.2).filter fun e => e.page_num.isSome
    let sorted_elements := elements_with_location ++ st.2.map fun p => p.2
    .ok (List.insertionSort elem_le sorted_elements)

lemma key_le_trans (a b c : Int × ℚ × ℚ) (hab : key_le a b = true)
    (hbc : key_le b c = true) : key_le a c = true := by
  simp only [key_le, Bool.or_eq_true, Bool.and_eq_true, decide_eq_true_eq] at hab hbc ⊢
  rcases hab with h1 | ⟨h1, h2⟩ <;> rcases hbc with g1 | ⟨g1, g2⟩
  · exact Or.inl (lt_trans h1 g1)
  · exact Or.inl (g1 ▸ h1)
  · exact Or.inl (h1 ▸ g1)
  · refine Or.inr ⟨h1.trans g1, ?_⟩
    rcases h2 with h2 | ⟨h2, h3⟩ <;> rcases g2 with g2 | ⟨g2, g3⟩
    · exact Or.inl (lt_trans h2 g2)
    · exact Or.inl (g2 ▸ h2)
    · exact Or.inl (h2 ▸ g2)
    · exact Or.inr ⟨h2.trans g2, le_trans h3 g3⟩

lemma key_le_total (a b : Int × ℚ × ℚ) : key_le a b = true ∨ key_le b a = true := by
  simp only [key_le, Bool.or_eq_true, Bool.and_eq_true, decide_eq_true_eq]
  rcases lt_trichotomy a.1 b.1 with h1 | h1 | h1
  · exact Or.inl (Or.inl h1)
  · rcases lt_trichotomy a.2.1 b.2.1 with h2 | h2 | h2
    · exact Or.inl (Or.inr ⟨h1, Or.inl h2⟩)
    · rcases le_total a.2.2 b.2.2 with h3 | h3
      · exact Or.inl (Or.inr ⟨h1, Or.inr ⟨h2, h3⟩⟩)
      · exact Or.inr (Or.inr ⟨h1.symm, Or.inr ⟨h2.symm, h3⟩⟩)
    · exact Or.inr (Or.inr ⟨h1.symm, Or.inl h2⟩)
  · exact Or.inr (Or.inl h1)

instance : IsTotal ElementDict elem_le :=
  ⟨fun a b => key_le_total (sort_key a) (sort_key b)⟩

instance : IsTrans ElementDict elem_le :=
  ⟨fun a b c => key_le_trans (sort_key a) (sort_key b) (sort_key c)⟩

/-- A two-field document used as a witness input: field "a" sits higher on
the page (larger `y0`) than field "b", and its annotation comes second. -/
def doc_two_text : PdfDoc :=
  ⟨[("a", { ft := some "/Tx" }), ("b", { ft := some "/Tx" })],
   [[⟨[some "b"], some ⟨0, 1, 10, 2⟩, none⟩, ⟨[some "a"], some ⟨0, 5, 10, 6⟩, none⟩]]⟩

/-- Claim C8: every successfully parsed element list is sorted under
`elem_le`, the lexicographic order on `sort_key = (page_num, -bounds[1],
bounds[0])` — page ascending, then the y-coordinate at index 1 descending
(via the negation), then the x-coordinate at index 0 ascending — and an
option group's key is taken from the bounds of its first recorded option. -/
theorem parse_form_elements_sorted (doc : PdfDoc) (l : List ElementDict)
    (h : parse_form_elements doc = .ok l) :
    List.Sorted elem_le l ∧
    (∀ a b : Int × ℚ × ℚ, key_le a b = true ↔
      (a.1 < b.1 ∨ (a.1 = b.1 ∧ (a.2.1 < b.2.1 ∨ (a.2.1 = b.2.1 ∧ a.2.2 ≤ b.2.2))))) ∧
    (∀ e o opts, e.available_options = some (o :: opts) →
      sort_key e = (e.page_num.getD 0, -((o.bounds.getD ⟨0, 0, 0, 0⟩).y0),
        (o.bounds.getD ⟨0, 0, 0, 0⟩).x0)) := by
  refine ⟨?_, ?_, ?_⟩
  · simp only [parse_form_elements] at h
    cases hinit : init_elements_loop doc.fields [] [] with
    | error u =>
      rw [hinit] at h
      exact absurd h (by simp)
    | ok p =>
      rw [hinit] at h
      simp only [Except.ok.injEq] at h
      subst h
      exact List.sorted_insertionSort elem_le _
  · intro a b
    simp [key_le]
  · intro e o opts hopt
    cases hb : o.bounds <;> simp [sort_key, hopt, hb]

/-- Witness for C8: the sorted output of `doc_two_text` ("a" first: its
`-y0 = -5` precedes "b"'s `-y0 = -1`). -/
theorem parse_form_elements_sorted_witness :
    List.Sorted elem_le
      [{ element_id := "a", element_type := "text_input", page_num := some 1,
         bounds := some ⟨0, 5, 10, 6⟩ },
       { element_id := "b", element_type := "text_input", page_num := some 1,
         bounds := some ⟨0, 1, 10, 2⟩ }] :=
  (parse_form_elements_sorted doc_two_text _ rfl).1

/-- A document whose only field is a button declaring the single state
"/A", with one page annotation giving it a rectangle. -/
def doc_one_state_button : PdfDoc :=
  ⟨[("cb", { ft := some "/Btn", states := [.str "/A"] })],
   [[⟨[some "cb"], some ⟨0, 0, 1, 1⟩, none⟩]]⟩

/-- The element that document publishes. -/
def cb_element : ElementDict :=
  { element_id := "cb", element_type := "toggle_box", page_num := some 1,
    bounds := some ⟨0, 0, 1, 1⟩ }

/-- Counterexample to claim C9 as stated: the one-state button is published
as a `toggle_box` that carries neither `on_value` nor `off_value` (both
fields are `none` in `cb_element`). -/
theorem toggle_box_missing_on_off :
    parse_form_elements doc_one_state_button = .ok [cb_element] := rfl

/-- The per-element attribute-shape invariant that does hold. -/
def attrs_ok (e : ElementDict) : Prop :=
  (e.menu_items.isSome ↔ e.element_type = "dropdown") ∧
  (e.available_options.isSome ↔ e.element_type = "option_group") ∧
  (e.on_value.isSome ↔ e.off_value.isSome) ∧
  (e.on_value.isSome → e.element_type = "toggle_box")

/-- All dict values satisfy `attrs_ok`. -/
def vals_ok (d : List (String × ElementDict)) : Prop :=
  ∀ p ∈ d, attrs_ok p.2

lemma unknown_ne (ft : Option String) (s : String) (hs : s.data.head? ≠ some 'u') :
    "unknown (" ++ ft_repr ft ++ ")" ≠ s := by
  intro heq
  apply hs
  rw [← heq]
  simp [String.data_append, List.head?_append]

lemma attrs_ok_build (f : PdfField) (i : String) (d : ElementDict)
    (h : build_element_dict f i = .ok d) : attrs_ok d := by
  unfold build_element_dict at h
  by_cases h1 : f.ft = some "/Tx"
  · rw [if_pos h1] at h
    simp only [Except.ok.injEq] at h
    subst h
    exact ⟨by simp, by simp, by simp, by simp⟩
  rw [if_neg h1] at h
  by_cases h2 : f.ft = some "/Btn"
  · rw [if_pos h2] at h
    by_cases h3 : f.states.length = 2
    · rw [if_pos h3] at h
      by_cases h4 : PdfState.str "/Off" ∈ f.states
      · rw [if_pos h4] at h
        simp only [Except.ok.injEq] at h
        subst h
        exact ⟨by simp, by simp, by simp, by simp⟩
      · rw [if_neg h4] at h
        simp only [Except.ok.injEq] at h
        subst h
        exact ⟨by simp, by simp, by simp, by simp⟩
    · rw [if_neg h3] at h
      simp only [Except.ok.injEq] at h
      subst h
      exact ⟨by simp, by simp, by simp, by simp⟩
  rw [if_neg h2] at h
  by_cases h5 : f.ft = some "/Ch"
  · rw [if_pos h5] at h
    cases hm : f.states.mapM state_menu_item with
    | error u => rw [hm] at h; exact absurd h (by simp)
    | ok items =>
      rw [hm] at h
      simp only [Except.ok.injEq] at h
      subst h
      exact ⟨by simp, by simp, by simp, by simp⟩
  · rw [if_neg h5] at h
    simp only [Except.ok.injEq] at h
    subst h
    refine ⟨by simp [unknown_ne f.ft "dropdown" (by decide)],
      by simp [unknown_ne f.ft "option_group" (by decide)], by simp, by simp⟩

lemma vals_ok_dict_set (d : List (String × ElementDict)) (k : String) (v : ElementDict)
    (hd : vals_ok d) (hv : attrs_ok v) : vals_ok (dict_set d k v) := by
  unfold dict_set
  split
  · intro p hp
    simp only [List.mem_map] at hp
    obtain ⟨q, hq, hpq⟩ := hp
    by_cases hk : q.1 = k
    · rw [if_pos hk] at hpq
      subst hpq
      exact hv
    · rw [if_neg hk] at hpq
      subst hpq
      exact hd q hq
  · intro p hp
    rcases List.mem_append.mp hp with hp | hp
    · exact hd p hp
    · simp only [List.mem_singleton] at hp
      subst hp
      exact hv

lemma vals_ok_init_loop (fields : List (String × PdfField)) :
    ∀ (els : List (String × ElementDict)) (groups : List String) res,
      vals_ok els → init_elements_loop fields els groups = .ok res → vals_ok res.1 := by
  induction fields with
  | nil =>
    intro els groups res hels h
    simp only [init_elements_loop, Except.ok.injEq] at h
    subst h
    exact hels
  | cons fp rest ih =>
    intro els groups res hels h
    obtain ⟨element_id, field⟩ := fp
    simp only [init_elements_loop] at h
    split_ifs at h with h1 h2
    · exact ih els _ res hels h
    · exact ih els groups res hels h
    · cases hb : build_element_dict field element_id with
      | error u => rw [hb] at h; exact absurd h (by simp)
      | ok d =>
        rw [hb] at h
        exact ih _ groups res (vals_ok_dict_set els element_id d hels (attrs_ok_build _ _ _ hb)) h

lemma attrs_ok_set_page (e : ElementDict) (page : Int) (b : Option Bounds)
    (h : attrs_ok e) : attrs_ok { e with page_num := some page, bounds := b } := by
  exact h

lemma vals_ok_set_page_bounds (els : List (String × ElementDict)) (k : String) (page : Int)
    (b : Option Bounds) (h : vals_ok els) : vals_ok (set_page_bounds els k page b) := by
  intro p hp
  simp only [set_page_bounds, List.mem_map] at hp
  obtain ⟨q, hq, hpq⟩ := hp
  by_cases hk : q.1 = k
  · rw [if_pos hk] at hpq
    subst hpq
    exact attrs_ok_set_page _ _ _ (h q hq)
  · rw [if_neg hk] at hpq
    subst hpq
    exact h q hq

lemma attrs_ok_new_group (k : String) (page : Int) : attrs_ok (new_option_group k page) := by
  simp [attrs_ok, new_option_group]

/-- Option-group dict values additionally always carry their option list. -/
def og_vals_ok (d : List (String × ElementDict)) : Prop :=
  ∀ p ∈ d, attrs_ok p.2 ∧ p.2.available_options.isSome = true

lemma attrs_ok_add_option (e : ElementDict) (v : String) (b : Option Bounds)
    (h : attrs_ok e) (hs : e.available_options.isSome = true) :
    attrs_ok (add_option e v b) ∧ (add_option e v b).available_options.isSome = true := by
  obtain ⟨h1, h2, h3, h4⟩ := h
  have ht : e.element_type = "option_group" := h2.mp hs
  exact ⟨⟨h1, by simp [add_option, ht], h3, h4⟩, by simp [add_option]⟩

lemma og_vals_ok_push_option (ogs : List (String × ElementDict)) (k : String) (page : Int)
    (v : String) (b : Option Bounds) (h : og_vals_ok ogs) :
    og_vals_ok (push_option ogs k page v b) := by
  unfold push_option
  have hbase : og_vals_ok
      (if ogs.any fun p => p.1 = k then ogs
       else ogs ++ [(k, new_option_group k page)]) := by
    split
    · exact h
    · intro p hp
      rcases List.mem_append.mp hp with hp | hp
      · exact h p hp
      · simp only [List.mem_singleton] at hp
        subst hp
        exact ⟨attrs_ok_new_group k page, by simp [new_option_group]⟩
  intro p hp
  simp only [List.mem_map] at hp
  obtain ⟨q, hq, hpq⟩ := hp
  by_cases hk : q.1 = k
  · rw [if_pos hk] at hpq
    subst hpq
    obtain ⟨ha, hs⟩ := hbase q hq
    exact attrs_ok_add_option q.2 v b ha hs
  · rw [if_neg hk] at hpq
    subst hpq
    exact hbase q hq

lemma vals_ok_process_ann (groups : List String) (page_idx : Nat) (ann : PdfAnnot)
    (st : List (String × ElementDict) × List (String × ElementDict))
    (h1 : vals_ok st.1) (h2 : og_vals_ok st.2) :
    vals_ok (process_ann groups page_idx ann st).1 ∧
      og_vals_ok (process_ann groups page_idx ann st).2 := by
  unfold process_ann
  cases build_complete_element_id ann with
  | none => exact ⟨h1, h2⟩
  | some element_id =>
    simp only
    split
    · exact ⟨vals_ok_set_page_bounds st.1 element_id (page_idx + 1) ann.rect h1, h2⟩
    · split
      · cases ann.ap_n with
        | none => exact ⟨h1, h2⟩
        | some states =>
          simp only
          split
          · exact ⟨h1, og_vals_ok_push_option st.2 element_id (page_idx + 1) _ ann.rect h2⟩
          · exact ⟨h1, h2⟩
      · exact ⟨h1, h2⟩

lemma vals_ok_process_page_anns (groups : List String) (page_idx : Nat) :
    ∀ (anns : List PdfAnnot) st, vals_ok st.1 → og_vals_ok st.2 →
      vals_ok (process_page_anns groups page_idx anns st).1 ∧
        og_vals_ok (process_page_anns groups page_idx anns st).2 := by
  intro anns
  induction anns with
  | nil => intro st h1 h2; exact ⟨h1, h2⟩
  | cons ann rest ih =>
    intro st h1 h2
    obtain ⟨g1, g2⟩ := vals_ok_process_ann groups page_idx ann st h1 h2
    exact ih _ g1 g2

lemma vals_ok_process_pages (groups : List String) :
    ∀ (pages : List (List PdfAnnot)) (page_idx : Nat) st, vals_ok st.1 → og_vals_ok st.2 →
      vals_ok (process_pages groups pages page_idx st).1 ∧
        og_vals_ok (process_pages groups pages page_idx st).2 := by
  intro pages
  induction pages with
  | nil => intro page_idx st h1 h2; exact ⟨h1, h2⟩
  | cons pg rest ih =>
    intro page_idx st h1 h2
    obtain ⟨g1, g2⟩ := vals_ok_process_page_anns groups page_idx pg st h1 h2
    exact ih _ _ g1 g2

/-- Claim C9 (amended): in every successfully published model, an element
carries `menu_items` iff it is a dropdown, carries `available_options` iff
it is an option group, and carries `on_value` iff it carries `off_value`,
with those two keys appearing only on toggle boxes — a toggle box built
from a button field with other than exactly two declared states carries
neither. -/
theorem published_element_attrs (doc : PdfDoc) (l : List ElementDict)
    (h : parse_form_elements doc = .ok l) :
    ∀ e ∈ l,
      (e.menu_items.isSome ↔ e.element_type = "dropdown") ∧
      (e.available_options.isSome ↔ e.element_type = "option_group") ∧
      (e.on_value.isSome ↔ e.off_value.isSome) ∧
      (e.on_value.isSome → e.element_type = "toggle_box") := by
  intro e he
  simp only [parse_form_elements] at h
  cases hinit : init_elements_loop doc.fields [] [] with
  | error u =>
    rw [hinit] at h
    exact absurd h (by simp)
  | ok p =>
    obtain ⟨els0, groups⟩ := p
    rw [hinit] at h
    simp only [Except.ok.injEq] at h
    subst h
    have hels0 : vals_ok els0 :=
      vals_ok_init_loop doc.fields [] [] (els0, groups) (by intro p hp; cases hp) hinit
    obtain ⟨hfin1, hfin2⟩ :=
      vals_ok_process_pages groups doc.pages 0 (els0, []) hels0 (by intro p hp; cases hp)
    have hmem := (List.perm_insertionSort elem_le _).mem_iff.mp he
    rcases List.mem_append.mp hmem with hm | hm
    · have hm2 := (List.mem_filter.mp hm).1
      obtain ⟨q, hq, rfl⟩ := List.mem_map.mp hm2
      exact hfin1 q hq
    · obtain ⟨q, hq, rfl⟩ := List.mem_map.mp hm
      exact (hfin2 q hq).1

/-- Witness for the amended C9: the invariant instantiated at the element
published for the one-state button document. -/
theorem published_element_attrs_witness :
    (cb_element.menu_items.isSome ↔ cb_element.element_type = "dropdown") ∧
    (cb_element.available_options.isSome ↔ cb_element.element_type = "option_group") ∧
    (cb_element.on_value.isSome ↔ cb_element.off_value.isSome) ∧
    (cb_element.on_value.isSome → cb_element.element_type = "toggle_box") :=
  published_element_attrs doc_one_state_button [cb_element] rfl cb_element (by simp)

/-! ## populate_interactive_form.py -/

/-- One entry of `form_data.json`; the `fill_value` key may be absent. -/
structure FillEntry where
  element_id : String
  page_num : Int
  fill_value : Option String := none
deriving DecidableEq, Repr

/-- The rejection diagnostics of `validate_element_value`, one constructor
per error message, carrying the interpolated values (each one names the
valid domain). -/
inductive FillDiag where
  | toggleInvalid (element_id fill_value : String) (on_val off_val : PdfState)
  | optionInvalid (element_id fill_value : String) (valid_values : List String)
  | dropdownInvalid (element_id fill_value : String) (menu_values : List String)
deriving DecidableEq, Repr

/-- Python `==` between a `"/_States_"` value and a JSON string. -/
def pdf_state_eq_str (p : PdfState) (s : String) : Bool :=
  match p with
  | .str v => decide (v = s)
  | .pair _ _ => false

/-- `validate_element_value(element_info, fill_value)`: toggles accept
exactly `on_value`/`off_value`, option groups membership in their options'
values, dropdowns membership in their menu values, anything else accepts
any value; a toggle/option-group/dropdown record missing its type-specific
key raises `KeyError`. -/
def validate_element_value (e : ElementDict) (fill_value : String) :
    Except Unit (Option FillDiag) :=
  if e.element_type = "toggle_box" then
    match e.on_value, e.off_value with
    | some on_val, some off_val =>
      if pdf_state_eq_str on_val fill_value = false ∧ pdf_state_eq_str off_val fill_value = false then
        .ok (some (.toggleInvalid e.element_id fill_value on_val off_val))
      else .ok none
    | _, _ => .error ()
  else if e.element_type = "option_group" then
    match e.available_options with
    | some opts =>
      if fill_value ∈ opts.map (fun o => o.option_value) then .ok none
      else .ok (some (.optionInvalid e.element_id fill_value (opts.map fun o => o.option_value)))
    | none => .error ()
  else if e.element_type = "dropdown" then
    match e.menu_items with
    | some items =>
      if fill_value ∈ items.map (fun it => it.option_value) then .ok none
      else .ok (some (.dropdownInvalid e.element_id fill_value (items.map fun it => it.option_value)))
    | none => .error ()
  else .ok none

/-- `elements_by_id = {e["element_id"]: e for e in elements}` followed by
`.get(...)`: the last element with the id wins. -/
def lookup_element (elements : List ElementDict) (element_id : String) : Option ElementDict :=
  elements.reverse.find? fun e => e.element_id = element_id

/-- One iteration of the validation loop: `True` means this entry flagged
an error, `.error` an uncaught `KeyError`. -/
def check_fill_entry (elements : List ElementDict) (entry : FillEntry) : Except Unit Bool :=
  match lookup_element elements entry.element_id with
  | none => .ok true
  | some el =>
    match el.page_num with
    | none => .error ()
    | some p =>
      if p ≠ entry.page_num then .ok true
      else
        match entry.fill_value with
        | none => .ok false
        | some v =>
          match validate_element_value el v with
          | .error u => .error u
          | .ok (some _) => .ok true
          | .ok none => .ok false

/-- The whole validation loop accumulating `has_errors`. -/
def check_fill_entries (elements : List ElementDict) :
    List FillEntry → Bool → Except Unit Bool
  | [], acc => .ok acc
  | e :: rest, acc =>
    match check_fill_entry elements e with
    | .error u => .error u
    | .ok b => check_fill_entries elements rest (acc || b)

/-- Insertion-ordered string-dict assignment. -/
def dict_set_str (d : List (String × String)) (k v : String) : List (String × String) :=
  if d.any fun p => p.1 = k then d.map fun p => if p.1 = k then (k, v) else p
  else d ++ [(k, v)]

/-- `data_by_page[page_num][element_id] = fill_value`. -/
def upsert_fill (acc : List (Int × List (String × String))) (page : Int) (id v : String) :
    List (Int × List (String × String)) :=
  if acc.any fun q => q.1 = page then
    acc.map fun q => if q.1 = page then (q.1, dict_set_str q.2 id v) else q
  else acc ++ [(page, dict_set_str [] id v)]

/-- The `data_by_page` grouping over entries carrying a `fill_value`. -/
def group_fill_data (form_data : List FillEntry) : List (Int × List (String × String)) :=
  form_data.foldl
    (fun acc e =>
      match e.fill_value with
      | some v => upsert_fill acc e.page_num e.element_id v
      | none => acc) []

/-- Observable outcome of `populate_form_fields`: an uncaught exception, the
`sys.exit(1)` after validation errors, or the per-page field-value writes
applied to the output document. -/
inductive FillRunResult where
  | crashed
  | aborted
  | wrote (writes : List (Int × List (String × String)))
deriving DecidableEq, Repr

/-- The validate-then-write core of `populate_form_fields`, given the
extracted model. -/
def populate_with_elements (elements : List ElementDict) (form_data : List FillEntry) :
    FillRunResult :=
  match check_fill_entries elements form_data false with
  | .error _ => .crashed
  | .ok true => .aborted
  | .ok false => .wrote (group_fill_data form_data)

/-- `populate_form_fields`: extract the model from the document, validate
every instruction, and only then mutate the field-value layer. -/
def populate_form_fields (doc : PdfDoc) (form_data : List FillEntry) : FillRunResult :=
  match parse_form_elements doc with
  | .error _ => .crashed
  | .ok elements => populate_with_elements elements form_data

/-- An instruction fails the batch checks: unknown id, page disagreeing
with the model's recorded page, or a rejected fill value. -/
def fill_entry_fails (elements : List ElementDict) (entry : FillEntry) : Prop :=
  lookup_element elements entry.element_id = none ∨
  (∃ el p, lookup_element elements entry.element_id = some el ∧ el.page_num = some p ∧
    p ≠ entry.page_num) ∨
  (∃ el v d, lookup_element elements entry.element_id = some el ∧ entry.fill_value = some v ∧
    validate_element_value el v = .ok (some d))

lemma check_ok_entry (elements : List ElementDict) (e : FillEntry)
    (h : check_fill_entry elements e = .ok false) : ¬ fill_entry_fails elements e := by
  unfold check_fill_entry at h
  cases hl : lookup_element elements e.element_id with
  | none => simp [hl] at h
  | some el =>
    simp only [hl] at h
    cases hp : el.page_num with
    | none => simp [hp] at h
    | some p =>
      simp only [hp] at h
      by_cases hpe : p ≠ e.page_num
      · rw [if_pos hpe] at h
        simp at h
      · rw [if_neg hpe] at h
        push_neg at hpe
        intro hf
        rcases hf with hf | ⟨el', p', hel', hp', hne⟩ | ⟨el', v, d, hel', hv, hval⟩
        · rw [hl] at hf; cases hf
        · rw [hl] at hel'
          injection hel' with hel'
          subst hel'
          rw [hp] at hp'
          injection hp' with hp'
          subst hp'
          exact hne hpe
        · rw [hl] at hel'
          injection hel' with hel'
          subst hel'
          simp [hv, hval] at h

lemma check_entries_acc_true (elements : List ElementDict) :
    ∀ (l : List FillEntry) (acc : Bool), acc = true →
      check_fill_entries elements l acc ≠ .ok false := by
  intro l
  induction l with
  | nil =>
    intro acc hacc h
    subst hacc
    simp [check_fill_entries] at h
  | cons e rest ih =>
    intro acc hacc h
    subst hacc
    simp only [check_fill_entries] at h
    cases hc : check_fill_entry elements e with
    | error u => rw [hc] at h; simp at h
    | ok b =>
      rw [hc] at h
      exact ih (true || b) (by simp) h

lemma check_ok_entries (elements : List ElementDict) :
    ∀ (l : List FillEntry) (acc : Bool), check_fill_entries elements l acc = .ok false →
      ∀ e ∈ l, ¬ fill_entry_fails elements e := by
  intro l
  induction l with
  | nil => intro acc h e he; cases he
  | cons e rest ih =>
    intro acc h x hx
    simp only [check_fill_entries] at h
    cases hc : check_fill_entry elements e with
    | error u => rw [hc] at h; simp at h
    | ok b =>
      rw [hc] at h
      rcases List.mem_cons.mp hx with rfl | hx
      · have hb : b = false := by
          by_contra hb
          simp only [Bool.not_eq_false] at hb
          subst hb
          exact check_entries_acc_true elements rest (acc || true) (by simp) h
        exact check_ok_entry elements x (hb ▸ hc)
      · exact ih (acc || b) h x hx

lemma populate_wrote_all_pass (doc : PdfDoc) (form_data : List FillEntry)
    (elements : List ElementDict) (h : parse_form_elements doc = .ok elements)
    (w : List (Int × List (String × String)))
    (hw : populate_form_fields doc form_data = .wrote w) :
    ∀ e ∈ form_data, ¬ fill_entry_fails elements e := by
  unfold populate_form_fields at hw
  rw [h] at hw
  unfold populate_with_elements at hw
  cases hc : check_fill_entries elements form_data false with
  | error u => simp [hc] at hw
  | ok b =>
    simp only [hc] at hw
    cases b with
    | true => simp at hw
    | false => exact check_ok_entries elements form_data false hc

/-- Claim C1: `populate_form_fields` is atomic — if any instruction
references an unknown `element_id`, carries a `page_num` disagreeing with
the model's recorded page, or carries a `fill_value` the model rejects, no
write happens and the output document is never produced; the field-value
writes happen only when every instruction passes every check. -/
theorem populate_form_fields_atomic (doc : PdfDoc) (form_data : List FillEntry)
    (elements : List ElementDict) (h : parse_form_elements doc = .ok elements) :
    ((∃ e ∈ form_data, fill_entry_fails elements e) →
      ∀ w, populate_form_fields doc form_data ≠ .wrote w) ∧
    (∀ w, populate_form_fields doc form_data = .wrote w →
      ∀ e ∈ form_data, ¬ fill_entry_fails elements e) := by
  constructor
  · rintro ⟨e, he, hf⟩ w hw
    exact populate_wrote_all_pass doc form_data elements h w hw e he hf
  · intro w hw
    exact populate_wrote_all_pass doc form_data elements h w hw

/-- Witness for C1: the two-field document with an instruction naming the
unknown id "zzz" never reaches the write phase. -/
theorem populate_form_fields_atomic_witness :
    populate_form_fields doc_two_text [⟨"zzz", 1, none⟩] ≠ FillRunResult.wrote [] :=
  (populate_form_fields_atomic doc_two_text [⟨"zzz", 1, none⟩]
      [{ element_id := "a", element_type := "text_input", page_num := some 1,
         bounds := some ⟨0, 5, 10, 6⟩ },
       { element_id := "b", element_type := "text_input", page_num := some 1,
         bounds := some ⟨0, 1, 10, 2⟩ }] rfl).1
    ⟨⟨"zzz", 1, none⟩, by simp, Or.inl rfl⟩ []

/-- The dropdown of claim C7's worked example. -/
def dd_example : ElementDict :=
  { element_id := "dd", element_type := "dropdown",
    menu_items := some [⟨"a", "A"⟩, ⟨"b", "B"⟩] }

/-- Claim C7: fill-value validation per element type — a text_input accepts
any value; a toggle_box accepts exactly its `on_value` or `off_value`; an
option_group accepts exactly its options' `option_value`s; a dropdown
accepts exactly its menu items' `option_value`s; every rejection carries a
diagnostic naming the valid domain; the dropdown with values `a`, `b`
rejects `"c"` with a diagnostic listing `["a", "b"]`. -/
theorem validate_element_value_domains :
    (∀ e v, e.element_type = "text_input" → validate_element_value e v = .ok none) ∧
    (∀ e v on_v off_v, e.element_type = "toggle_box" →
      e.on_value = some (.str on_v) → e.off_value = some (.str off_v) →
      (validate_element_value e v = .ok none ↔ (v = on_v ∨ v = off_v)) ∧
      (v ≠ on_v → v ≠ off_v →
        validate_element_value e v =
          .ok (some (.toggleInvalid e.element_id v (.str on_v) (.str off_v))))) ∧
    (∀ e v opts, e.element_type = "option_group" → e.available_options = some opts →
      (validate_element_value e v = .ok none ↔ v ∈ opts.map fun o => o.option_value) ∧
      (v ∉ opts.map (fun o => o.option_value) →
        validate_element_value e v =
          .ok (some (.optionInvalid e.element_id v (opts.map fun o => o.option_value))))) ∧
    (∀ e v items, e.element_type = "dropdown" → e.menu_items = some items →
      (validate_element_value e v = .ok none ↔ v ∈ items.map fun it => it.option_value) ∧
      (v ∉ items.map (fun it => it.option_value) →
        validate_element_value e v =
          .ok (some (.dropdownInvalid e.element_id v (items.map fun it => it.option_value))))) ∧
    validate_element_value dd_example "c" =
      .ok (some (.dropdownInvalid "dd" "c" ["a", "b"])) := by
  refine ⟨?_, ?_, ?_, ?_, by rfl⟩
  · intro e v ht
    simp [validate_element_value, ht]
  · intro e v on_v off_v ht hon hoff
    unfold validate_element_value
    rw [if_pos ht]
    simp only [hon, hoff]
    constructor
    · by_cases hcon : pdf_state_eq_str (.str on_v) v = false ∧ pdf_state_eq_str (.str off_v) v = false
      · rw [if_pos hcon]
        obtain ⟨h1, h2⟩ := hcon
        simp only [pdf_state_eq_str, decide_eq_false_iff_not] at h1 h2
        simp only [Except.ok.injEq]
        constructor
        · intro hfalse
          cases hfalse
        · rintro (rfl | rfl)
          · exact absurd rfl h1
          · exact absurd rfl h2
      · rw [if_neg hcon]
        simp only [pdf_state_eq_str, Classical.not_and_iff_or_not_not,
          decide_eq_false_iff_not, not_not] at hcon
        simp only [Except.ok.injEq, true_iff]
        rcases hcon with h | h
        · exact Or.inl h.symm
        · exact Or.inr h.symm
    · intro hne1 hne2
      rw [if_pos ?_]
      constructor <;> simp [pdf_state_eq_str]
      · exact fun hh => hne1 hh.symm
      · exact fun hh => hne2 hh.symm
  · intro e v opts ht hopts
    have ht1 : ¬ e.element_type = "toggle_box" := by rw [ht]; decide
    unfold validate_element_value
    rw [if_neg ht1, if_pos ht]
    simp only [hopts]
    constructor
    · by_cases hm : v ∈ opts.map fun o => o.option_value
      · rw [if_pos hm]
        simp [hm]
      · rw [if_neg hm]
        simp [hm]
    · intro hm
      rw [if_neg hm]
  · intro e v items ht hitems
    have ht1 : ¬ e.element_type = "toggle_box" := by rw [ht]; decide
    have ht2 : ¬ e.element_type = "option_group" := by rw [ht]; decide
    unfold validate_element_value
    rw [if_neg ht1, if_neg ht2, if_pos ht]
    simp only [hitems]
    constructor
    · by_cases hm : v ∈ items.map fun it => it.option_value
      · rw [if_pos hm]
        simp [hm]
      · rw [if_neg hm]
        simp [hm]
    · intro hm
      rw [if_neg hm]

/-- Witness for C7: the theorem's dropdown clause applied to the concrete
two-item dropdown and the rejected value `"c"`. -/
theorem validate_element_value_domains_witness :
    validate_element_value dd_example "c" =
      .ok (some (.dropdownInvalid "dd" "c" ["a", "b"])) :=
  (validate_element_value_domains.2.2.2.1 dd_example "c" [⟨"a", "A"⟩, ⟨"b", "B"⟩]
    rfl rfl).2 (by decide)

end BitFun
